import Mathlib

/-!
Shallow embedding of `lib/sqlalchemy/engine/row.py` (the pure-Python
`BaseRow` / `Row` / `RowMapping` implementation, `_baserow_usecext = False`).

Python values of a row are modelled by a type parameter `V`.  A key passed to
the indexing operators is modelled by the inductive `Key`: Python integers
(`int in key.__class__.__mro__`), strings, column-identity objects, slices,
and other unhashable objects (for which a dict lookup raises `TypeError`,
exactly as for a slice).

Errors are modelled by `RowError`:
  * `indexError`      — sequence access out of range;
  * `typeError`       — type-mismatch class (`TypeError`): raised by the
                        parent's `_raise_for_nonint` callback and by a dict
                        lookup with an unhashable key;
  * `keyError p`      — key-not-found class (`KeyError` and subclasses),
                        carrying its argument / message payload;
  * `ambiguousName n` — the distinct error raised by the parent's
                        `_raise_for_ambiguous_column_name` callback;
  * `attributeError p` — `AttributeError`, carrying the message payload.

The parent (result-set metadata) is an external collaborator: only the
fields and callbacks `row.py` consumes are modelled, following section 6 of
the specification.  Its `_key_fallback` resolver is an arbitrary function
returning either a resolution record or an error.
-/

deriving instance DecidableEq for Except

/-- Key styles: the four access-strictness modes of `row.py`
(`KEY_INTEGER_ONLY = 0`, `KEY_OBJECTS_ONLY = 1`, `KEY_OBJECTS_BUT_WARN = 2`,
`KEY_OBJECTS_NO_WARN = 3`). -/
inductive KeyStyle where
  | integerOnly
  | objectsOnly
  | objectsButWarn
  | objectsNoWarn
deriving DecidableEq, Repr

/-- A key passed to `__getitem__` / `_get_by_key_impl` /
`_get_by_key_impl_mapping`.  `int i` is any Python value with `int` in its
mro; `str` a column name; `obj` a hashable column-identity object (identified
by a tag); `slice` a slice `start:stop`; `unhash` a non-slice unhashable
object (a dict lookup with it raises `TypeError`). -/
inductive Key where
  | int (i : Int)
  | str (s : String)
  | obj (o : Nat)
  | slice (start stop : Nat)
  | unhash (o : Nat)
deriving DecidableEq, Repr

/-- Errors surfaced by row operations (see module docstring). -/
inductive RowError where
  | indexError
  | typeError
  | keyError (payload : Key)
  | ambiguousName (name : String)
  | attributeError (payload : Key)
deriving DecidableEq, Repr

/-- A resolution record produced by a keymap lookup.  `row.py` reads
`rec[MD_INDEX]` with `MD_INDEX = 0`: the resolved position, or `None`
(the ambiguous sentinel).  `name` stands for the rest of the record, which
the ambiguous-column-name callback uses to identify the colliding name. -/
structure Rec where
  mdindex : Option Nat
  name : String
deriving DecidableEq, Repr

/-- The per-result-set parent descriptor, an external collaborator.
Modelled from the spec: `keys` is the ordered list of column names (nullable
entries allowed); `keymap` the key-to-resolution-record index (`none` for an
absent key, making a dict lookup raise `KeyError`); `fallback` the
unresolvable-key resolver `_key_fallback`, which may return a record or fail
(per the spec, with a key-not-found-class error; kept arbitrary here). -/
structure Parent (V : Type) where
  keys : List (Option String)
  keymap : Key → Option Rec
  fallback : Key → Except RowError Rec

/-- The fields of `BaseRow`: `__slots__ = ("_parent", "_data", "_keymap",
"_key_style")`.  `keymap` is the row's own reference; it coincides with
`parent.keymap` in every row the result-fetch path builds, and is
re-derived from the parent on `__setstate__`. -/
structure BaseRow (V : Type) where
  parent : Parent V
  data : List V
  keymap : Key → Option Rec
  key_style : KeyStyle

/-- Applies one optional processor: `proc(value) if proc else value`. -/
def procApply {V : Type} (p : Option (V → V)) (v : V) : V :=
  match p with
  | some f => f v
  | none => v

/-- The value tuple built by `BaseRow.__init__`: when `processors` is truthy
(a non-empty list), `tuple([proc(value) if proc else value for proc, value
in zip(processors, data)])` (Python `zip` truncates to the shorter
argument); otherwise `tuple(data)`. -/
def applyProcessors {V : Type} (processors : Option (List (Option (V → V))))
    (data : List V) : List V :=
  match processors with
  | none => data
  | some ps =>
      if ps.isEmpty then data
      else (List.zip ps data).map (fun pv => procApply pv.1 pv.2)

/-- The processor `__init__` applies at position `i`: the `i`-th entry of
the processor list when one is supplied and the entry is present, else
none (identity). -/
def procAt {V : Type} (processors : Option (List (Option (V → V))))
    (i : Nat) : Option (V → V) :=
  match processors with
  | none => none
  | some ps => ps.getD i none

/-- `BaseRow.__init__(parent, processors, keymap, key_style, data)`. -/
def rowInit {V : Type} (parent : Parent V)
    (processors : Option (List (Option (V → V))))
    (keymap : Key → Option Rec) (key_style : KeyStyle)
    (data : List V) : BaseRow V :=
  { parent := parent
    data := applyProcessors processors data
    keymap := keymap
    key_style := key_style }

/-- `BaseRow._filter_on_values(filters)`: builds
`Row(self._parent, filters, self._keymap, self._key_style, self._data)`. -/
def filterOnValues {V : Type} (r : BaseRow V)
    (filters : Option (List (Option (V → V)))) : BaseRow V :=
  rowInit r.parent filters r.keymap r.key_style r.data

/-- `BaseRow.__len__`: `len(self._data)`. -/
def rowLen {V : Type} (r : BaseRow V) : Nat :=
  r.data.length

/-- Normalization of a Python sequence index: a negative index counts from
the end of the sequence. -/
def pyNorm (n : Nat) (i : Int) : Int :=
  if i < 0 then i + n else i

/-- Python sequence indexing `data[i]` with an `int` index: negative indices
count from the end; out of range raises `IndexError`. -/
def pyGetInt {V : Type} (data : List V) (i : Int) : Except RowError V :=
  if 0 ≤ pyNorm data.length i then
    match data.get? (pyNorm data.length i).toNat with
    | some v => .ok v
    | none => .error .indexError
  else
    .error .indexError

/-- Python sequence indexing `data[m]` with a non-negative index. -/
def pyGetNat {V : Type} (data : List V) (m : Nat) : Except RowError V :=
  match data.get? m with
  | some v => .ok v
  | none => .error .indexError

/-- Python slice `tuple(data[start:stop])` for non-negative bounds. -/
def pySlice {V : Type} (data : List V) (start stop : Nat) : List V :=
  (data.drop start).take (stop - start)

/-- `BaseRow._get_by_int_impl(key)`: `self._data[key]`. -/
def getByIntImpl {V : Type} (r : BaseRow V) (i : Int) : Except RowError V :=
  pyGetInt r.data i

/-- Whether `int in key.__class__.__mro__` holds for a key. -/
def isIntKey : Key → Bool
  | .int _ => true
  | _ => false

/-- Whether a Python dict lookup with this key is possible at all: slices and
other unhashable objects raise `TypeError` when used as a dict key. -/
def hashableKey : Key → Bool
  | .slice _ _ => false
  | .unhash _ => false
  | _ => true

/-- Outcome of the bare dict lookup `self._keymap[key]`. -/
inductive LookupErr where
  | keyNotFound (k : Key)
  | typeMismatch
deriving DecidableEq, Repr

/-- The dict lookup `self._keymap[key]`: raises `TypeError` on an unhashable
key, `KeyError` on an absent key, else returns the record. -/
def keymapGet (km : Key → Option Rec) (k : Key) : Except LookupErr Rec :=
  if hashableKey k then
    match km k with
    | some rec => .ok rec
    | none => .error (.keyNotFound k)
  else
    .error .typeMismatch

/-- Resolution of a key to a record, shared by `_get_by_key_impl` and
`_get_by_key_impl_mapping`: the dict lookup `self._keymap[key]`, with a
`KeyError` handed to the parent's `_key_fallback` resolver and a `TypeError`
propagating. -/
def resolveRec {V : Type} (r : BaseRow V) (key : Key) : Except RowError Rec :=
  match keymapGet r.keymap key with
  | .ok rec => .ok rec
  | .error (.keyNotFound _) => r.parent.fallback key
  | .error .typeMismatch => .error .typeError

/-- Whether `mdindex != key` holds in Python when `mdindex` is the resolved
integer position: a non-integer key never equals an integer. -/
def keyEqInt (k : Key) (m : Nat) : Bool :=
  match k with
  | .int i => i == (m : Int)
  | _ => false

/-- The tail of `_get_by_key_impl` once a record was obtained:
`mdindex = rec[MD_INDEX]`; if `None`, fail through
`self._parent._raise_for_ambiguous_column_name(rec)` (modelled from the
spec: a distinct AmbiguousName error identifying the colliding name); else
if `self._key_style == KEY_OBJECTS_BUT_WARN and mdindex != key`, emit
`self._parent._warn_for_nonint(key)` (recorded in the boolean component);
then return `self._data[mdindex]`. -/
def finishKey {V : Type} (r : BaseRow V) (key : Key) (rec : Rec) :
    Except RowError (V × Bool) :=
  match rec.mdindex with
  | none => .error (.ambiguousName rec.name)
  | some m =>
      match pyGetNat r.data m with
      | .ok v =>
          .ok (v, decide (r.key_style = KeyStyle.objectsButWarn) &&
            !(keyEqInt key m))
      | .error e => .error e

/-- A value returned by the combined accessor: a single value, or the tuple
produced by a slice key. -/
inductive PyVal (V : Type) where
  | one (v : V)
  | tup (vs : List V)
deriving DecidableEq, Repr

/-- `BaseRow._get_by_key_impl(key)` (also `Row.__getitem__`).  The boolean
component records whether the parent's non-integer-key deprecation warning
`_warn_for_nonint` was emitted.  Control flow follows the source: integer
keys return `self._data[key]` at once; under `KEY_INTEGER_ONLY` any other
key fails through `self._parent._raise_for_nonint(key)` (modelled from the
spec: a type-mismatch-class error); then `self._keymap[key]` is tried, a
`KeyError` is handed to `self._parent._key_fallback`, a `TypeError` returns
`tuple(self._data[key])` for a slice and is re-raised otherwise. -/
def getByKeyImpl {V : Type} (r : BaseRow V) (key : Key) :
    Except RowError (PyVal V × Bool) :=
  match key with
  | .int i => (pyGetInt r.data i).map (fun v => (.one v, false))
  | _ =>
      if r.key_style = KeyStyle.integerOnly then
        .error .typeError
      else
        match keymapGet r.keymap key with
        | .error .typeMismatch =>
            match key with
            | .slice a b => .ok (.tup (pySlice r.data a b), false)
            | _ => .error .typeError
        | .error (.keyNotFound _) =>
            match r.parent.fallback key with
            | .error e => .error e
            | .ok rec => (finishKey r key rec).map (fun vw => (.one vw.1, vw.2))
        | .ok rec => (finishKey r key rec).map (fun vw => (.one vw.1, vw.2))

/-- The tail of `_get_by_key_impl_mapping` once a record was obtained:
if `rec[MD_INDEX]` is `None`, fail through the parent's ambiguous-column
callback; else if `self._key_style == KEY_OBJECTS_ONLY and int in
key.__class__.__mro__`, `raise KeyError(key)`; then return
`self._data[mdindex]`. -/
def finishMapping {V : Type} (r : BaseRow V) (key : Key) (rec : Rec) :
    Except RowError V :=
  match rec.mdindex with
  | none => .error (.ambiguousName rec.name)
  | some m =>
      if r.key_style = KeyStyle.objectsOnly ∧ isIntKey key then
        .error (.keyError key)
      else
        pyGetNat r.data m

/-- `BaseRow._get_by_key_impl_mapping(key)` (also `RowMapping.__getitem__`):
`self._keymap[key]` with `KeyError` handed to `_key_fallback`; a `TypeError`
from the lookup propagates (no slice handling here). -/
def getByKeyImplMapping {V : Type} (r : BaseRow V) (key : Key) :
    Except RowError V :=
  match keymapGet r.keymap key with
  | .error .typeMismatch => .error .typeError
  | .error (.keyNotFound _) =>
      match r.parent.fallback key with
      | .error e => .error e
      | .ok rec => finishMapping r key rec
  | .ok rec => finishMapping r key rec

/-- `BaseRow.__getattr__(name)`: `self._get_by_key_impl_mapping(name)`, and a
`KeyError e` is replaced by `AttributeError(e.args[0])`. -/
def getattrImpl {V : Type} (r : BaseRow V) (name : String) :
    Except RowError V :=
  match getByKeyImplMapping r (.str name) with
  | .error (.keyError p) => .error (.attributeError p)
  | x => x

/-- `BaseRow.__hash__`: `hash(self._data)` — the ambient hash applied to the
value tuple alone. -/
def rowHash {V : Type} (hashData : List V → Nat) (r : BaseRow V) : Nat :=
  hashData r.data

/-- `Row.__eq__` on two rows: `Row._op` takes the `isinstance(other, Row)`
branch, `operator.eq(tuple(self), tuple(other))`. -/
def rowEqRow {V : Type} [DecidableEq V] (r o : BaseRow V) : Bool :=
  decide (r.data = o.data)

/-- `Row.__eq__` against a plain ordered sequence (tuple) operand:
`Row._op` takes the other branch, `operator.eq(tuple(self), other)`. -/
def rowEqSeq {V : Type} [DecidableEq V] (r : BaseRow V) (o : List V) : Bool :=
  decide (r.data = o)

/-- The snapshot produced by `Row.__getstate__`: a dict with exactly the
keys `_parent`, `_data`, `_key_style`. -/
structure RowState (V : Type) where
  parent : Parent V
  data : List V
  key_style : KeyStyle

/-- `Row.__getstate__`. -/
def getstate {V : Type} (r : BaseRow V) : RowState V :=
  { parent := r.parent, data := r.data, key_style := r.key_style }

/-- `Row.__setstate__`: restores `_parent`, `_data`, `_key_style` from the
snapshot and re-derives `_keymap` as `parent._keymap`. -/
def setstate {V : Type} (s : RowState V) : BaseRow V :=
  { parent := s.parent
    data := s.data
    keymap := s.parent.keymap
    key_style := s.key_style }

/-! ### Concrete fixtures

Small concrete result sets used to evaluate the theorems on explicit
inputs. -/

/-- A parent with two columns that share the name "dup": the keymap maps
that name to a record carrying the ambiguous sentinel. -/
def dupParent : Parent Nat :=
  { keys := [some "dup", some "dup"]
    keymap := fun k => if k = Key.str "dup" then some ⟨none, "dup"⟩ else none
    fallback := fun k => .error (.keyError k) }

/-- A row over `dupParent` with key style `KEY_INTEGER_ONLY`. -/
def dupRowIntOnly : BaseRow Nat :=
  { parent := dupParent
    data := [10, 20]
    keymap := dupParent.keymap
    key_style := .integerOnly }

/-- A row over `dupParent` with key style `KEY_OBJECTS_NO_WARN`. -/
def dupRowNoWarn : BaseRow Nat :=
  { parent := dupParent
    data := [10, 20]
    keymap := dupParent.keymap
    key_style := .objectsNoWarn }

/-- A row over `dupParent` whose own keymap reference was made to differ
from the parent's, exercising the re-derivation of the keymap on restore. -/
def detachedRow : BaseRow Nat :=
  { parent := dupParent
    data := [10, 20]
    keymap := fun _ => none
    key_style := .objectsNoWarn }

/-- A parent with one column "a" at position 0 whose keymap also resolves
the integer key 0, as result metadata does for positions. -/
def intKeyParent : Parent Nat :=
  { keys := [some "a"]
    keymap := fun k =>
      if k = Key.int 0 ∨ k = Key.str "a" then some ⟨some 0, "a"⟩ else none
    fallback := fun k => .error (.keyError k) }

/-- A row over `intKeyParent` with the mapping view's default key style
`KEY_OBJECTS_ONLY`. -/
def mapRowObjectsOnly : BaseRow Nat :=
  { parent := intKeyParent
    data := [7]
    keymap := intKeyParent.keymap
    key_style := .objectsOnly }

/-- A row over `intKeyParent` with key style `KEY_OBJECTS_BUT_WARN`. -/
def warnRowA : BaseRow Nat :=
  { parent := intKeyParent
    data := [7]
    keymap := intKeyParent.keymap
    key_style := .objectsButWarn }

/-- A row over `intKeyParent` with key style `KEY_OBJECTS_NO_WARN`. -/
def noWarnRowA : BaseRow Nat :=
  { parent := intKeyParent
    data := [7]
    keymap := intKeyParent.keymap
    key_style := .objectsNoWarn }

/-- A row over `intKeyParent` with key style `KEY_INTEGER_ONLY`. -/
def intOnlyRowA : BaseRow Nat :=
  { parent := intKeyParent
    data := [7]
    keymap := intKeyParent.keymap
    key_style := .integerOnly }

/-- A row holding the same value tuple as `dupRowNoWarn` but with a
different parent, keymap, and key style. -/
def otherParentRow : BaseRow Nat :=
  { parent := intKeyParent
    data := [10, 20]
    keymap := intKeyParent.keymap
    key_style := .integerOnly }

/-! ### Helper lemmas -/

theorem pyGetNat_lt {V : Type} (data : List V) (m : Nat)
    (h : m < data.length) : pyGetNat data m = .ok (data.get ⟨m, h⟩) := by
  simp [pyGetNat, List.getElem?_eq_getElem h]

theorem pyGetNat_not_keyError {V : Type} (data : List V) (m : Nat) (p : Key) :
    pyGetNat data m ≠ .error (.keyError p) := by
  unfold pyGetNat
  cases hg : data.get? m <;> simp

theorem pyGetInt_natCast {V : Type} (data : List V) (i : Nat)
    (h : i < data.length) :
    pyGetInt data (i : Int) = .ok (data.get ⟨i, h⟩) := by
  have h1 : pyNorm data.length (i : Int) = (i : Int) := by
    unfold pyNorm
    rw [if_neg (by omega)]
  simp [pyGetInt, h1, List.getElem?_eq_getElem h]

theorem pyGetInt_error {V : Type} (data : List V) (i : Int) (e : RowError)
    (h : pyGetInt data i = .error e) : e = RowError.indexError := by
  unfold pyGetInt at h
  split at h
  · split at h <;> simp_all
  · simp_all

theorem applyProcessors_length {V : Type}
    (processors : Option (List (Option (V → V)))) (data : List V)
    (hp : ∀ ps, processors = some ps → ps.length = data.length) :
    (applyProcessors processors data).length = data.length := by
  cases processors with
  | none => rfl
  | some ps =>
      have hl := hp ps rfl
      by_cases he : ps.isEmpty
      · simp [applyProcessors, he]
      · simp [applyProcessors, he, hl]

theorem applyProcessors_getElem {V : Type}
    (processors : Option (List (Option (V → V)))) (data : List V)
    (hp : ∀ ps, processors = some ps → ps.length = data.length)
    (i : Nat) (hi : i < data.length)
    (hi2 : i < (applyProcessors processors data).length) :
    (applyProcessors processors data).get ⟨i, hi2⟩ =
      procApply (procAt processors i) (data.get ⟨i, hi⟩) := by
  cases processors with
  | none => simp [applyProcessors, procAt, procApply]
  | some ps =>
      have hl := hp ps rfl
      by_cases he : ps.isEmpty
      · rw [List.isEmpty_iff] at he
        subst he
        simp at hl
        omega
      · have hip : i < ps.length := by omega
        simp only [applyProcessors, he, if_neg, Bool.false_eq_true,
          ite_false, List.get_eq_getElem]
        rw [List.getElem_map, List.getElem_zip]
        simp [procAt, List.getElem?_eq_getElem hip]

/-! ### Claim theorems -/

/-- C1: for every row and every integer-typed key, the combined keyed
accessor `_get_by_key_impl` (aliased as `Row.__getitem__`) resolves
positionally under every key style: it equals positional indexing of
`values`, returns `values[key]` whenever the key is an in-range position,
and never fails with a key-rejected (type-mismatch) error — the only
possible failure is an out-of-range `IndexError`. -/
theorem c1_integer_key_positional {V : Type} (r : BaseRow V) (i : Int) :
    getByKeyImpl r (Key.int i) =
      (getByIntImpl r i).map (fun v => (PyVal.one v, false)) ∧
    (∀ j : Nat, (hj : j < r.data.length) → i = (j : Int) →
      getByKeyImpl r (Key.int i) = .ok (.one (r.data.get ⟨j, hj⟩), false)) ∧
    ∀ e, getByKeyImpl r (Key.int i) = .error e → e = RowError.indexError := by
  refine ⟨rfl, ?_, ?_⟩
  · intro j hj hij
    subst hij
    show (pyGetInt r.data (j : Int)).map (fun v => (PyVal.one v, false)) = _
    rw [pyGetInt_natCast r.data j hj]
    rfl
  · intro e he
    have he2 : (pyGetInt r.data i).map
        (fun v => (PyVal.one v, false)) = .error e := he
    cases hpy : pyGetInt r.data i with
    | ok v => rw [hpy] at he2; simp [Except.map] at he2
    | error e2 =>
        rw [hpy] at he2
        simp [Except.map] at he2
        subst he2
        exact pyGetInt_error r.data i e2 hpy

/-- C1 witness: on the concrete `KEY_INTEGER_ONLY` row with values
`[10, 20]`, integer keyed access at position 1 returns 20. -/
theorem c1_integer_key_positional_witness :
    1 < dupRowIntOnly.data.length ∧
    getByKeyImpl dupRowIntOnly (Key.int 1) = .ok (.one 20, false) := by
  refine ⟨by decide, ?_⟩
  exact (c1_integer_key_positional dupRowIntOnly 1).2.1 1 (by decide) rfl

/-- C5: equality and hash of sequence-view rows are functions of the value
tuple only: rows over equal value tuples are `==`-equal and hash-equal
regardless of parent, keymap, or key style, and a row compares `==`-equal
to a plain ordered sequence holding the same values (`Row._op` treats both
operands as plain value tuples; `BaseRow.__hash__` is `hash(self._data)`). -/
theorem c5_eq_hash_values_only {V : Type} [DecidableEq V]
    (hashData : List V → Nat) (r o : BaseRow V) (s : List V)
    (hd : r.data = o.data) (hs : r.data = s) :
    rowEqRow r o = true ∧ rowEqRow o r = true ∧
    rowHash hashData r = rowHash hashData o ∧
    rowEqSeq r s = true := by
  refine ⟨?_, ?_, ?_, ?_⟩
  · simp [rowEqRow, hd]
  · simp [rowEqRow, hd]
  · simp [rowHash, hd]
  · simp [rowEqSeq, hs]

/-- C5 witness: two concrete rows over the value tuple `[10, 20]` with
different parents, keymaps, and key styles are `==`-equal, hash-equal, and
`==`-equal to the plain sequence `[10, 20]`. -/
theorem c5_eq_hash_values_only_witness :
    dupRowNoWarn.data = otherParentRow.data ∧
    rowEqRow dupRowNoWarn otherParentRow = true ∧
    rowHash List.length dupRowNoWarn = rowHash List.length otherParentRow ∧
    rowEqSeq dupRowNoWarn [10, 20] = true := by
  have h := c5_eq_hash_values_only List.length dupRowNoWarn otherParentRow
    [10, 20] rfl rfl
  exact ⟨rfl, h.1, h.2.2.1, h.2.2.2⟩

/-- C6: `__getstate__` captures exactly the parent, the values, and the key
style (it is determined by those three fields, so in particular it does not
depend on the keymap), and `__setstate__` of that snapshot restores a row
with equal values, key style, parent, and hash, `==`-equal to the original,
whose keymap is re-derived from the parent. -/
theorem c6_state_roundtrip {V : Type} [DecidableEq V]
    (hashData : List V → Nat) (r r2 : BaseRow V) :
    (setstate (getstate r)).parent = r.parent ∧
    (setstate (getstate r)).data = r.data ∧
    (setstate (getstate r)).key_style = r.key_style ∧
    (setstate (getstate r)).keymap = r.parent.keymap ∧
    rowHash hashData (setstate (getstate r)) = rowHash hashData r ∧
    rowEqRow (setstate (getstate r)) r = true ∧
    (r2.parent = r.parent → r2.data = r.data → r2.key_style = r.key_style →
      getstate r2 = getstate r) := by
  have e1 : (setstate (getstate r)).parent = r.parent := rfl
  have e2 : (setstate (getstate r)).data = r.data := rfl
  have e3 : (setstate (getstate r)).key_style = r.key_style := rfl
  have e4 : (setstate (getstate r)).keymap = r.parent.keymap := rfl
  have e5 : rowHash hashData (setstate (getstate r)) = rowHash hashData r :=
    rfl
  have e6 : rowEqRow (setstate (getstate r)) r = true := by
    simp [rowEqRow, e2]
  have e7 : r2.parent = r.parent → r2.data = r.data →
      r2.key_style = r.key_style → getstate r2 = getstate r := by
    intro h1 h2 h3
    simp [getstate, h1, h2, h3]
  exact ⟨e1, e2, e3, e4, e5, e6, e7⟩

/-- C6 witness: restoring the captured state of a concrete row (whose own
keymap reference was made to differ from its parent's) yields an
`==`-equal row, and its snapshot coincides with the snapshot of the row
that shares its parent, values, and key style but not its keymap. -/
theorem c6_state_roundtrip_witness :
    (setstate (getstate detachedRow)).data = detachedRow.data ∧
    rowEqRow (setstate (getstate detachedRow)) detachedRow = true ∧
    getstate dupRowNoWarn = getstate detachedRow := by
  have h := c6_state_roundtrip List.length detachedRow dupRowNoWarn
  exact ⟨h.2.1, h.2.2.2.2.2.1, h.2.2.2.2.2.2 rfl rfl rfl⟩

/-- C7: a row constructed by `__init__` from raw values of length `n` (with
a processor sequence of one entry per raw value when supplied) has length
`n`, and positional access at each `i < n` returns the final value: the
`i`-th processor applied to the `i`-th raw value when supplied and present,
the raw value unchanged otherwise.  Processing happens once, in the
constructed value tuple itself. -/
theorem c7_construct_spec {V : Type} (parent : Parent V)
    (processors : Option (List (Option (V → V))))
    (keymap : Key → Option Rec) (key_style : KeyStyle) (data : List V)
    (hp : ∀ ps, processors = some ps → ps.length = data.length) :
    rowLen (rowInit parent processors keymap key_style data) = data.length ∧
    ∀ i : Nat, (hi : i < data.length) →
      getByIntImpl (rowInit parent processors keymap key_style data)
          (i : Int) =
        .ok (procApply (procAt processors i) (data.get ⟨i, hi⟩)) := by
  refine ⟨applyProcessors_length processors data hp, ?_⟩
  intro i hi
  have hi2 : i < (applyProcessors processors data).length := by
    rw [applyProcessors_length processors data hp]
    exact hi
  show pyGetInt (applyProcessors processors data) (i : Int) = _
  rw [pyGetInt_natCast _ i hi2]
  rw [applyProcessors_getElem processors data hp i hi hi2]

/-- C7 witness: constructing a row from raw values `[3, 5]` with processors
`[some (+1), none]` gives length 2, position 0 processed to 4, and
position 1 passed through as 5. -/
theorem c7_construct_spec_witness :
    rowLen (rowInit dupParent (some [some (fun v => v + 1), none])
      dupParent.keymap KeyStyle.objectsNoWarn [3, 5]) = 2 ∧
    getByIntImpl (rowInit dupParent (some [some (fun v => v + 1), none])
      dupParent.keymap KeyStyle.objectsNoWarn [3, 5]) 0 = .ok 4 ∧
    getByIntImpl (rowInit dupParent (some [some (fun v => v + 1), none])
      dupParent.keymap KeyStyle.objectsNoWarn [3, 5]) 1 = .ok 5 := by
  have h := c7_construct_spec dupParent
    (some [some (fun v => v + 1), none]) dupParent.keymap
    KeyStyle.objectsNoWarn [3, 5]
    (by intro ps hps; cases hps; rfl)
  exact ⟨h.1, h.2 0 (by decide), h.2 1 (by decide)⟩

/-- C9: `_filter_on_values(filters)` produces a new row sharing the
original's parent, keymap, and key style, whose values are the original's
values with the supplied filters applied entrywise (the original row, a
pure value here, is unchanged by construction). -/
theorem c9_filter_on_values_spec {V : Type} (r : BaseRow V)
    (filters : Option (List (Option (V → V))))
    (hp : ∀ fs, filters = some fs → fs.length = r.data.length) :
    (filterOnValues r filters).parent = r.parent ∧
    (filterOnValues r filters).keymap = r.keymap ∧
    (filterOnValues r filters).key_style = r.key_style ∧
    rowLen (filterOnValues r filters) = rowLen r ∧
    ∀ i : Nat, (hi : i < r.data.length) →
      getByIntImpl (filterOnValues r filters) (i : Int) =
        .ok (procApply (procAt filters i) (r.data.get ⟨i, hi⟩)) := by
  refine ⟨rfl, rfl, rfl, applyProcessors_length filters r.data hp, ?_⟩
  intro i hi
  have hi2 : i < (applyProcessors filters r.data).length := by
    rw [applyProcessors_length filters r.data hp]
    exact hi
  show pyGetInt (applyProcessors filters r.data) (i : Int) = _
  rw [pyGetInt_natCast _ i hi2]
  rw [applyProcessors_getElem filters r.data hp i hi hi2]

/-- C9 witness: filtering the concrete row `[10, 20]` with
`[none, some (+1)]` shares parent, keymap, and key style and yields values
10 and 21 positionally. -/
theorem c9_filter_on_values_spec_witness :
    (filterOnValues dupRowNoWarn (some [none, some (fun v => v + 1)])).parent
        = dupRowNoWarn.parent ∧
    (filterOnValues dupRowNoWarn
        (some [none, some (fun v => v + 1)])).key_style
        = dupRowNoWarn.key_style ∧
    getByIntImpl (filterOnValues dupRowNoWarn
        (some [none, some (fun v => v + 1)])) 0 = .ok 10 ∧
    getByIntImpl (filterOnValues dupRowNoWarn
        (some [none, some (fun v => v + 1)])) 1 = .ok 21 := by
  have h := c9_filter_on_values_spec dupRowNoWarn
    (some [none, some (fun v => v + 1)])
    (by intro fs hfs; cases hfs; rfl)
  exact ⟨h.1, h.2.2.1, h.2.2.2.2 0 (by decide), h.2.2.2.2 1 (by decide)⟩

theorem getByKeyImpl_resolved {V : Type} (r : BaseRow V) (key : Key)
    (rec : Rec) (hni : isIntKey key = false) (hh : hashableKey key = true)
    (hres : resolveRec r key = .ok rec)
    (hs : r.key_style ≠ KeyStyle.integerOnly) :
    getByKeyImpl r key =
      (finishKey r key rec).map (fun vw => (PyVal.one vw.1, vw.2)) := by
  unfold resolveRec at hres
  cases key with
  | int i => simp [isIntKey] at hni
  | slice a b => simp [hashableKey] at hh
  | unhash o => simp [hashableKey] at hh
  | str s =>
      unfold getByKeyImpl
      rw [if_neg hs]
      cases hkg : keymapGet r.keymap (Key.str s) with
      | ok rec2 =>
          rw [hkg] at hres
          have h2 : (Except.ok rec2 : Except RowError Rec) = .ok rec := hres
          injection h2 with h2
          subst h2
          rfl
      | error le =>
          cases le with
          | typeMismatch =>
              rw [hkg] at hres
              exact absurd hres (by simp)
          | keyNotFound k =>
              rw [hkg] at hres
              have h2 : r.parent.fallback (Key.str s) = .ok rec := hres
              rw [h2]
  | obj o =>
      unfold getByKeyImpl
      rw [if_neg hs]
      cases hkg : keymapGet r.keymap (Key.obj o) with
      | ok rec2 =>
          rw [hkg] at hres
          have h2 : (Except.ok rec2 : Except RowError Rec) = .ok rec := hres
          injection h2 with h2
          subst h2
          rfl
      | error le =>
          cases le with
          | typeMismatch =>
              rw [hkg] at hres
              exact absurd hres (by simp)
          | keyNotFound k =>
              rw [hkg] at hres
              have h2 : r.parent.fallback (Key.obj o) = .ok rec := hres
              rw [h2]

theorem finishMapping_str_no_keyError {V : Type} (r : BaseRow V)
    (s : String) (rec : Rec) (p : Key) :
    finishMapping r (Key.str s) rec ≠ .error (.keyError p) := by
  intro h
  unfold finishMapping at h
  cases hm : rec.mdindex with
  | none => rw [hm] at h; simp at h
  | some m =>
      rw [hm] at h
      have h2 : (if r.key_style = KeyStyle.objectsOnly ∧
            isIntKey (Key.str s) = true then
          Except.error (RowError.keyError (Key.str s))
        else pyGetNat r.data m) = Except.error (RowError.keyError p) := h
      rw [if_neg (by simp [isIntKey])] at h2
      exact pyGetNat_not_keyError r.data m p h2

/-- C2 counterexample: on a concrete `KEY_INTEGER_ONLY` row whose keymap
maps "dup" to the ambiguous sentinel, the combined accessor
`_get_by_key_impl` fails through `_raise_for_nonint` with the
type-mismatch error — not through the ambiguous-column-name callback —
so the claim as stated (for every row, keyed access by an ambiguous name
fails with AmbiguousName via either accessor) is false. -/
theorem c2_ambiguous_name_counterexample :
    dupRowIntOnly.keymap (Key.str "dup") = some ⟨none, "dup"⟩ ∧
    getByKeyImpl dupRowIntOnly (Key.str "dup") = .error .typeError ∧
    getByKeyImpl dupRowIntOnly (Key.str "dup") ≠
      .error (.ambiguousName "dup") := by
  refine ⟨by decide, rfl, ?_⟩
  intro h
  rw [show getByKeyImpl dupRowIntOnly (Key.str "dup") =
    .error RowError.typeError from rfl] at h
  simp at h

/-- C2 (amended): for every row whose keymap maps a name to a record
carrying the ambiguous sentinel, keyed access by that name fails through
the parent's ambiguous-column-name callback with the distinct
AmbiguousName error (never a key-not-found error): unconditionally through
the mapping-mode accessor, and through the combined accessor whenever the
key style is not `KEY_INTEGER_ONLY` (under `KEY_INTEGER_ONLY` the combined
accessor rejects every non-integer key first); positional access to every
in-range position still returns the stored value. -/
theorem c2_ambiguous_name_distinct {V : Type} (r : BaseRow V)
    (name : String) (rec : Rec)
    (hk : r.keymap (Key.str name) = some rec) (hamb : rec.mdindex = none) :
    (r.key_style ≠ KeyStyle.integerOnly →
      getByKeyImpl r (Key.str name) = .error (.ambiguousName rec.name)) ∧
    getByKeyImplMapping r (Key.str name) = .error (.ambiguousName rec.name) ∧
    (∀ p, getByKeyImplMapping r (Key.str name) ≠ .error (.keyError p)) ∧
    ∀ i : Nat, (hi : i < r.data.length) →
      getByIntImpl r (i : Int) = .ok (r.data.get ⟨i, hi⟩) := by
  have hmap : getByKeyImplMapping r (Key.str name) =
      .error (.ambiguousName rec.name) := by
    simp [getByKeyImplMapping, keymapGet, hashableKey, hk, finishMapping,
      hamb]
  refine ⟨?_, hmap, ?_, ?_⟩
  · intro hstyle
    simp [getByKeyImpl, keymapGet, hashableKey, hk, finishKey, hamb, hstyle,
      Except.map]
  · intro p hcontra
    rw [hmap] at hcontra
    simp at hcontra
  · intro i hi
    exact pyGetInt_natCast r.data i hi

/-- C2 witness: on the concrete duplicate-name row with key style
`KEY_OBJECTS_NO_WARN`, keyed access by "dup" fails with AmbiguousName
through both accessors while positions 0 and 1 still return 10 and 20. -/
theorem c2_ambiguous_name_distinct_witness :
    getByKeyImpl dupRowNoWarn (Key.str "dup") =
      .error (.ambiguousName "dup") ∧
    getByKeyImplMapping dupRowNoWarn (Key.str "dup") =
      .error (.ambiguousName "dup") ∧
    getByIntImpl dupRowNoWarn 0 = .ok 10 ∧
    getByIntImpl dupRowNoWarn 1 = .ok 20 := by
  have h := c2_ambiguous_name_distinct dupRowNoWarn "dup" ⟨none, "dup"⟩
    (by decide) rfl
  exact ⟨h.1 (by decide), h.2.1, h.2.2.2 0 (by decide), h.2.2.2 1 (by decide)⟩

/-- C8 counterexample: on a concrete `KEY_INTEGER_ONLY` row, the keymap
lookup of a slice key raises the type mismatch, yet the combined accessor
does not return the sub-sequence of values: it propagates the
type-mismatch error raised by `_raise_for_nonint` before the keymap lookup
is ever attempted — so the claim as stated (for every row) is false. -/
theorem c8_slice_counterexample :
    keymapGet dupRowIntOnly.keymap (Key.slice 0 2) = .error .typeMismatch ∧
    getByKeyImpl dupRowIntOnly (Key.slice 0 2) = .error .typeError ∧
    getByKeyImpl dupRowIntOnly (Key.slice 0 2) ≠
      .ok (.tup (pySlice dupRowIntOnly.data 0 2), false) := by
  refine ⟨rfl, rfl, ?_⟩
  intro h
  rw [show getByKeyImpl dupRowIntOnly (Key.slice 0 2) =
    .error RowError.typeError from rfl] at h
  simp at h

/-- C8 (amended): for every row whose key style is not `KEY_INTEGER_ONLY`,
the keymap lookup of a slice key raises a type mismatch and the combined
accessor then returns the corresponding sub-sequence of values as a tuple
instead of an error, while for a non-slice key whose lookup raises a type
mismatch the error propagates (under `KEY_INTEGER_ONLY`, the non-integer
rejection fires before the lookup; see the counterexample). -/
theorem c8_slice_subsequence {V : Type} (r : BaseRow V)
    (hs : r.key_style ≠ KeyStyle.integerOnly) :
    (∀ a b : Nat,
      keymapGet r.keymap (Key.slice a b) = .error .typeMismatch ∧
      getByKeyImpl r (Key.slice a b) =
        .ok (.tup (pySlice r.data a b), false)) ∧
    (∀ o : Nat,
      keymapGet r.keymap (Key.unhash o) = .error .typeMismatch ∧
      getByKeyImpl r (Key.unhash o) = .error .typeError) := by
  constructor
  · intro a b
    refine ⟨rfl, ?_⟩
    unfold getByKeyImpl
    rw [if_neg hs]
    rfl
  · intro o
    refine ⟨rfl, ?_⟩
    unfold getByKeyImpl
    rw [if_neg hs]
    rfl

/-- C8 witness: on the concrete `KEY_OBJECTS_NO_WARN` row with values
`[10, 20]`, the slice key `0:2` returns the tuple `[10, 20]` and a
non-slice unhashable key propagates the type-mismatch error. -/
theorem c8_slice_subsequence_witness :
    dupRowNoWarn.key_style ≠ KeyStyle.integerOnly ∧
    getByKeyImpl dupRowNoWarn (Key.slice 0 2) = .ok (.tup [10, 20], false) ∧
    getByKeyImpl dupRowNoWarn (Key.unhash 0) = .error .typeError := by
  refine ⟨by decide, ?_, ?_⟩
  · exact ((c8_slice_subsequence dupRowNoWarn (by decide)).1 0 2).2
  · exact ((c8_slice_subsequence dupRowNoWarn (by decide)).2 0).2

/-- C3 counterexample: on a concrete `KEY_OBJECTS_ONLY` row whose keymap
resolves the integer key 0, the mapping-mode accessor
`_get_by_key_impl_mapping` executes `raise KeyError(key)`: the failure is a
key-not-found-class error carrying the key, not the type-mismatch-class
error the claim asserts. -/
theorem c3_mapping_int_counterexample :
    mapRowObjectsOnly.key_style = KeyStyle.objectsOnly ∧
    mapRowObjectsOnly.keymap (Key.int 0) = some ⟨some 0, "a"⟩ ∧
    getByKeyImplMapping mapRowObjectsOnly (Key.int 0) =
      .error (.keyError (Key.int 0)) ∧
    getByKeyImplMapping mapRowObjectsOnly (Key.int 0) ≠
      .error .typeError := by
  refine ⟨rfl, by decide, rfl, ?_⟩
  intro h
  rw [show getByKeyImplMapping mapRowObjectsOnly (Key.int 0) =
    .error (RowError.keyError (Key.int 0)) from rfl] at h
  simp at h

/-- C3 (amended): for every row with key style `KEY_OBJECTS_ONLY` and every
integer key that resolves in the keymap to a non-ambiguous position, the
mapping-mode accessor fails — but with the key-not-found-class error
`KeyError(key)` raised directly by `_get_by_key_impl_mapping`, not with a
type-mismatch-class error. -/
theorem c3_mapping_rejects_int {V : Type} (r : BaseRow V) (i : Int)
    (rec : Rec) (m : Nat)
    (hs : r.key_style = KeyStyle.objectsOnly)
    (hk : r.keymap (Key.int i) = some rec) (hm : rec.mdindex = some m) :
    getByKeyImplMapping r (Key.int i) = .error (.keyError (Key.int i)) ∧
    getByKeyImplMapping r (Key.int i) ≠ .error .typeError := by
  have h1 : getByKeyImplMapping r (Key.int i) =
      .error (.keyError (Key.int i)) := by
    simp [getByKeyImplMapping, keymapGet, hashableKey, hk, finishMapping,
      hm, hs, isIntKey]
  refine ⟨h1, ?_⟩
  intro h
  rw [h1] at h
  simp at h

/-- C3 witness: applying the amended theorem to the concrete
`KEY_OBJECTS_ONLY` row whose keymap resolves the integer key 0 to
position 0. -/
theorem c3_mapping_rejects_int_witness :
    getByKeyImplMapping mapRowObjectsOnly (Key.int 0) =
      .error (.keyError (Key.int 0)) := by
  exact (c3_mapping_rejects_int mapRowObjectsOnly 0 ⟨some 0, "a"⟩ 0 rfl
    (by decide) rfl).1

/-- C4: for every `KEY_OBJECTS_BUT_WARN` row and every non-integer key
whose resolution through the keymap or the fallback yields a non-ambiguous
in-range position, the combined accessor emits `_warn_for_nonint` exactly
when the resolved position differs from the literal key (which, the key
being non-integer, is always the case) and still returns
`values[resolvedPosition]`; under `KEY_OBJECTS_ONLY` and
`KEY_OBJECTS_NO_WARN` the same access succeeds with no warning, and under
`KEY_INTEGER_ONLY` it fails with the non-integer rejection (hence also
warns nothing). -/
theorem c4_objects_but_warn {V : Type} (r : BaseRow V) (key : Key)
    (rec : Rec) (m : Nat)
    (hni : isIntKey key = false)
    (hres : resolveRec r key = .ok rec)
    (hm : rec.mdindex = some m) (hlt : m < r.data.length) :
    (r.key_style = KeyStyle.objectsButWarn →
      getByKeyImpl r key =
        .ok (.one (r.data.get ⟨m, hlt⟩), !(keyEqInt key m)) ∧
      keyEqInt key m = false) ∧
    (r.key_style = KeyStyle.objectsOnly ∨
        r.key_style = KeyStyle.objectsNoWarn →
      getByKeyImpl r key = .ok (.one (r.data.get ⟨m, hlt⟩), false)) ∧
    (r.key_style = KeyStyle.integerOnly →
      getByKeyImpl r key = .error .typeError) := by
  have hh : hashableKey key = true := by
    cases key with
    | slice a b => simp [resolveRec, keymapGet, hashableKey] at hres
    | unhash o => simp [resolveRec, keymapGet, hashableKey] at hres
    | int i => rfl
    | str s => rfl
    | obj o => rfl
  have hke : keyEqInt key m = false := by
    cases key <;> simp_all [isIntKey, keyEqInt]
  have hfin : finishKey r key rec =
      .ok (r.data.get ⟨m, hlt⟩,
        decide (r.key_style = KeyStyle.objectsButWarn) &&
          !(keyEqInt key m)) := by
    simp only [finishKey, hm, pyGetNat_lt r.data m hlt]
  refine ⟨?_, ?_, ?_⟩
  · intro hw
    have hbr := getByKeyImpl_resolved r key rec hni hh hres (by simp [hw])
    rw [hbr, hfin]
    simp [Except.map, hw, hke]
  · intro hcase
    have hs2 : r.key_style ≠ KeyStyle.integerOnly := by
      cases hcase with
      | inl h => simp [h]
      | inr h => simp [h]
    have hbr := getByKeyImpl_resolved r key rec hni hh hres hs2
    rw [hbr, hfin]
    cases hcase with
    | inl h => simp [Except.map, h, hke]
    | inr h => simp [Except.map, h, hke]
  · intro hio
    cases key with
    | int i => simp [isIntKey] at hni
    | slice a b => simp [hashableKey] at hh
    | unhash o => simp [hashableKey] at hh
    | str s => simp [getByKeyImpl, hio]
    | obj o => simp [getByKeyImpl, hio]

/-- C4 witness: over the concrete parent resolving "a" to position 0, the
warn-style row returns 7 with the warning emitted, the no-warn and
objects-only rows return 7 with no warning, and the integer-only row
fails with the type-mismatch rejection. -/
theorem c4_objects_but_warn_witness :
    getByKeyImpl warnRowA (Key.str "a") = .ok (.one 7, true) ∧
    getByKeyImpl noWarnRowA (Key.str "a") = .ok (.one 7, false) ∧
    getByKeyImpl mapRowObjectsOnly (Key.str "a") = .ok (.one 7, false) ∧
    getByKeyImpl intOnlyRowA (Key.str "a") = .error .typeError := by
  refine ⟨?_, ?_, ?_, ?_⟩
  · exact ((c4_objects_but_warn warnRowA (Key.str "a") ⟨some 0, "a"⟩ 0
      rfl (by decide) rfl (by decide)).1 rfl).1
  · exact (c4_objects_but_warn noWarnRowA (Key.str "a") ⟨some 0, "a"⟩ 0
      rfl (by decide) rfl (by decide)).2.1 (Or.inr rfl)
  · exact (c4_objects_but_warn mapRowObjectsOnly (Key.str "a")
      ⟨some 0, "a"⟩ 0 rfl (by decide) rfl (by decide)).2.1 (Or.inl rfl)
  · exact (c4_objects_but_warn intOnlyRowA (Key.str "a") ⟨some 0, "a"⟩ 0
      rfl (by decide) rfl (by decide)).2.2 rfl

/-- C10: attribute-style access `__getattr__(name)` resolves through the
mapping-mode keyed lookup: a successful lookup is returned unchanged; a
key-not-found failure is surfaced as an AttributeError carrying the same
message payload, and never as a key error; and since names are strings the
`KEY_OBJECTS_ONLY` integer rejection cannot fire — any key-not-found
failure of the lookup on a string key originates in the parent's fallback
resolver. -/
theorem c10_getattr_resolution {V : Type} (r : BaseRow V) (name : String) :
    (∀ v : V, getByKeyImplMapping r (Key.str name) = .ok v →
      getattrImpl r name = .ok v) ∧
    (∀ p, getByKeyImplMapping r (Key.str name) = .error (.keyError p) →
      getattrImpl r name = .error (.attributeError p)) ∧
    (∀ p, getattrImpl r name ≠ .error (.keyError p)) ∧
    (∀ p, getByKeyImplMapping r (Key.str name) = .error (.keyError p) →
      r.parent.fallback (Key.str name) = .error (.keyError p)) := by
  refine ⟨?_, ?_, ?_, ?_⟩
  · intro v h
    unfold getattrImpl
    rw [h]
  · intro p h
    unfold getattrImpl
    rw [h]
  · intro p h
    unfold getattrImpl at h
    cases hm : getByKeyImplMapping r (Key.str name) with
    | ok v => rw [hm] at h; simp at h
    | error e =>
        rw [hm] at h
        cases e <;> simp at h
  · intro p h
    unfold getByKeyImplMapping at h
    cases hkg : keymapGet r.keymap (Key.str name) with
    | ok rec =>
        rw [hkg] at h
        have h2 : finishMapping r (Key.str name) rec =
            .error (.keyError p) := h
        exact absurd h2 (finishMapping_str_no_keyError r name rec p)
    | error le =>
        cases le with
        | typeMismatch =>
            rw [hkg] at h
            simp at h
        | keyNotFound k =>
            rw [hkg] at h
            cases hf : r.parent.fallback (Key.str name) with
            | error e =>
                rw [hf] at h
                have h2 : (Except.error e : Except RowError V) =
                    .error (.keyError p) := h
                injection h2 with h2
                rw [h2]
            | ok rec =>
                rw [hf] at h
                have h2 : finishMapping r (Key.str name) rec =
                    .error (.keyError p) := h
                exact absurd h2 (finishMapping_str_no_keyError r name rec p)

/-- C10 witness: on the concrete row whose keymap lacks "nope" and whose
fallback raises the key-not-found error, the mapping lookup fails with
`KeyError` and attribute access surfaces the AttributeError with the same
payload. -/
theorem c10_getattr_resolution_witness :
    getByKeyImplMapping dupRowNoWarn (Key.str "nope") =
      .error (.keyError (Key.str "nope")) ∧
    getattrImpl dupRowNoWarn "nope" =
      .error (.attributeError (Key.str "nope")) := by
  refine ⟨by decide, ?_⟩
  exact (c10_getattr_resolution dupRowNoWarn "nope").2.1 (Key.str "nope")
    (by decide)
